import Mathlib

/-!
Shallow embedding of the AMQP subscriber pipeline
(transport/amqp/subscriber.go of inturn/kit).

Go errors are modelled as `Option Err` (none = nil) or `Except Err α` for
fallible functions returning a value.  Side effects on the broker channel and
on the delivery (publish, ack, nack, sleep, log) are modelled as an explicit
trace of events produced by each run.  Pointer mutation of the outbound
`amqp.Publishing` is modelled by explicit state passing.
-/

/-- A non-nil Go error value, identified by its message. -/
abbrev Err := String

/-- The outbound message under construction (`amqp.Publishing`).  We model the
fields the pipeline reads or writes plus representative further fields so that
frame conditions ("no other field changes") are expressible. -/
structure Publishing where
  correlationId : String := ""
  replyTo : String := ""
  contentType : String := ""
  messageId : String := ""
  body : String := ""
deriving DecidableEq, Repr

/-- The inbound message (`amqp.Delivery`): the fields the pipeline reads. -/
structure Delivery where
  correlationId : String := ""
  replyTo : String := ""
  body : String := ""
deriving DecidableEq, Repr

/-- The processing context (`context.Context`): per-request overrides read by
the pipeline through the context-accessor helpers. -/
structure Ctx where
  publishExchange : Option String := none
  publishKey : Option String := none
  nackSleepDuration : Option Nat := none
deriving DecidableEq, Repr

/-- Observable side effects of one run, in order of occurrence. -/
inductive Event where
  | publish (exchange key : String) (mandatory immediate : Bool) (msg : Publishing)
  | ack (multiple : Bool)
  | nack (multiple requeue : Bool)
  | sleep (duration : Nat)
  | log (key value : String)
deriving DecidableEq, Repr

/-- The Channel interface: its `Publish` can fail, with the error determined
by the (arbitrary) broker behaviour `publishErr`. -/
structure Channel where
  publishErr : String → String → Bool → Bool → Publishing → Option Err

/-- Model of `ch.Publish(exchange, key, mandatory, immediate, msg)`: emits the publish
event and returns the broker's error result. -/
def Channel.Publish (ch : Channel) (exchange key : String) (mandatory immediate : Bool)
    (msg : Publishing) : Option Err × List Event :=
  (ch.publishErr exchange key mandatory immediate msg,
   [Event.publish exchange key mandatory immediate msg])

/-- Model of `deliv.Ack(multiple)`: emits the ack event (its error result is ignored by
all callers in this file, as in the source). -/
def Delivery.Ack (_d : Delivery) (multiple : Bool) : List Event :=
  [Event.ack multiple]

/-- Model of `deliv.Nack(multiple, requeue)`: emits the nack event. -/
def Delivery.Nack (_d : Delivery) (multiple requeue : Bool) : List Event :=
  [Event.nack multiple requeue]

/-- Modelled from the spec: `getPublishExchange` is not under src/ (only its
caller is).  "exchange = Processing-Context override (default empty string
meaning default exchange)". -/
def getPublishExchange (ctx : Ctx) : String :=
  ctx.publishExchange.getD ""

/-- Modelled from the spec: `getPublishKey` is not under src/.  "key =
Processing-Context override if set, else the delivery's reply-to field" (the
fallback is applied by the caller when the override is empty). -/
def getPublishKey (ctx : Ctx) : String :=
  ctx.publishKey.getD ""

/-- Modelled from the spec: the fixed fallback backoff used when the
Processing Context carries no override. -/
def defaultNackSleepDuration : Nat := 1000

/-- Modelled from the spec: `getNackSleepDuration` is not under src/.  "a
duration taken from the Processing Context's backoff override (default: a
fixed fallback if unset)". -/
def getNackSleepDuration (ctx : Ctx) : Nat :=
  ctx.nackSleepDuration.getD defaultNackSleepDuration

/-- Type of `RequestFunc`: a before hook.  It may read the delivery, mutate the
Publishing and replace the context; it returns no error.  Side effects it
performs through the delivery are its event list. -/
abbrev RequestFunc := Ctx → Publishing → Delivery → (Ctx × Publishing) × List Event

/-- Type of `SubscriberResponseFunc`: an after hook.  It may observe the delivery and
the channel, mutate the Publishing and replace the context; no error. -/
abbrev SubscriberResponseFunc :=
  Ctx → Delivery → Channel → Publishing → (Ctx × Publishing) × List Event

/-- Type of `SubscriberFinalizerFunc`: invoked with the context and the terminal
error; it returns nothing and has no access to the delivery or channel. -/
abbrev SubscriberFinalizerFunc := Ctx → Option Err → Unit

/-- Type of `ErrorEncoder`: invoked with (ctx, err, deliv, ch, pub); may mutate the
Publishing and perform channel/delivery side effects. -/
abbrev ErrorEncoder := Ctx → Err → Delivery → Channel → Publishing → Publishing × List Event

/-- The logger collaborator: `Log(keyvals...)` records diagnostic pairs; its
output is embedded into the trace as log events. -/
abbrev Logger := String → String → List (String × String)

/-- Model of `log.NewNopLogger()`: discards everything. -/
def NewNopLogger : Logger := fun _ _ => []

/-- The Subscriber, with the fields of the Go struct. -/
structure Subscriber (Req Resp : Type) where
  e : Ctx → Req → Except Err Resp
  dec : Ctx → Delivery → Except Err Req
  enc : Ctx → Publishing → Resp → Publishing × Option Err
  before : List RequestFunc := []
  after : List SubscriberResponseFunc := []
  finalizer : List SubscriberFinalizerFunc := []
  errorEncoder : ErrorEncoder
  logger : Logger

/-- A subscriber option mutates the subscriber under construction. -/
abbrev SubscriberOption (Req Resp : Type) := Subscriber Req Resp → Subscriber Req Resp

/-- Constructor `NewSubscriber`: defaults are the silent error encoder and the nop
logger; each option is applied in call order. -/
def NewSubscriber (e : Ctx → Req → Except Err Resp) (dec : Ctx → Delivery → Except Err Req)
    (enc : Ctx → Publishing → Resp → Publishing × Option Err)
    (options : List (SubscriberOption Req Resp)) (defaultEncoder : ErrorEncoder) :
    Subscriber Req Resp :=
  options.foldl (fun s o => o s)
    { e := e, dec := dec, enc := enc, errorEncoder := defaultEncoder, logger := NewNopLogger }

/-- Option `SubscriberBefore`: appends before hooks. -/
def SubscriberBefore (fs : List RequestFunc) : SubscriberOption Req Resp :=
  fun s => { s with before := s.before ++ fs }

/-- Option `SubscriberAfter`: appends after hooks. -/
def SubscriberAfter (fs : List SubscriberResponseFunc) : SubscriberOption Req Resp :=
  fun s => { s with after := s.after ++ fs }

/-- Option `SubscriberErrorEncoder`: replaces the error encoder. -/
def SubscriberErrorEncoder (ee : ErrorEncoder) : SubscriberOption Req Resp :=
  fun s => { s with errorEncoder := ee }

/-- Option `ServerFinalizer`: appends finalizers. -/
def ServerFinalizer (fs : List SubscriberFinalizerFunc) : SubscriberOption Req Resp :=
  fun s => { s with finalizer := s.finalizer ++ fs }

/-- Loop `for _, f := range s.before { ctx = f(ctx, &pub, deliv) }`. -/
def runBefore : List RequestFunc → Ctx → Publishing → Delivery → (Ctx × Publishing) × List Event
  | [], ctx, pub, _ => ((ctx, pub), [])
  | f :: fs, ctx, pub, deliv =>
      let r := f ctx pub deliv
      let rest := runBefore fs r.1.1 r.1.2 deliv
      (rest.1, r.2 ++ rest.2)

/-- Loop `for _, f := range s.after { ctx = f(ctx, deliv, ch, &pub) }`. -/
def runAfter : List SubscriberResponseFunc → Ctx → Delivery → Channel → Publishing →
    (Ctx × Publishing) × List Event
  | [], ctx, _, _, pub => ((ctx, pub), [])
  | f :: fs, ctx, deliv, ch, pub =>
      let r := f ctx deliv ch pub
      let rest := runAfter fs r.1.1 deliv ch r.1.2
      (rest.1, r.2 ++ rest.2)

/-- The pipeline stages, recorded in the order they are entered. -/
inductive Stage where
  | decode
  | invoke
  | encode
  | publish
deriving DecidableEq, Repr

/-- One recorded invocation of the error encoder, with its arguments
(the channel argument is always the channel `ServeDelivery` was given). -/
structure EncoderCall where
  ctx : Ctx
  err : Err
  deliv : Delivery
  pub : Publishing
deriving DecidableEq, Repr

/-- The observable outcome of one `ServeDelivery` run. -/
structure ServeResult where
  events : List Event
  pub : Publishing
  err : Option Err
  stagesRun : List Stage
  encoderCalls : List EncoderCall
  finalizerCalls : List (Ctx × Option Err)
deriving Repr

/-- Method `Subscriber.publishResponse`: fills an empty correlation id from the
delivery, resolves exchange and routing key from the context (falling back to
the delivery's reply-to), and publishes with mandatory=false, immediate=false.
Returns ((error, mutated pub), events). -/
def Subscriber.publishResponse (_s : Subscriber Req Resp) (ctx : Ctx) (deliv : Delivery)
    (ch : Channel) (pub : Publishing) : (Option Err × Publishing) × List Event :=
  let pub := if pub.correlationId = "" then { pub with correlationId := deliv.correlationId }
             else pub
  let replyExchange := getPublishExchange ctx
  let replyTo :=
    let k := getPublishKey ctx
    if k = "" then deliv.replyTo else k
  let r := ch.Publish replyExchange replyTo false false pub
  ((r.1, pub), r.2)

/-- Method `Subscriber.ServeDelivery`: the per-delivery handler.  Finalizer calls
record the context and error each registered finalizer receives (one entry per
registered finalizer, in registration order). -/
def Subscriber.ServeDelivery (s : Subscriber Req Resp) (ch : Channel) (deliv : Delivery) :
    ServeResult :=
  let ctx0 : Ctx := {}
  let pub0 : Publishing := {}
  let bres := runBefore s.before ctx0 pub0 deliv
  let ctx1 := bres.1.1
  let pub1 := bres.1.2
  let evB := bres.2
  match s.dec ctx1 deliv with
  | .error e =>
      let eres := s.errorEncoder ctx1 e deliv ch pub1
      { events := evB ++ (s.logger "err" e).map (fun kv => Event.log kv.1 kv.2) ++ eres.2
        pub := eres.1
        err := some e
        stagesRun := [Stage.decode]
        encoderCalls := [⟨ctx1, e, deliv, pub1⟩]
        finalizerCalls := List.replicate s.finalizer.length (ctx1, some e) }
  | .ok request =>
    match s.e ctx1 request with
    | .error e =>
        let eres := s.errorEncoder ctx1 e deliv ch pub1
        { events := evB ++ (s.logger "err" e).map (fun kv => Event.log kv.1 kv.2) ++ eres.2
          pub := eres.1
          err := some e
          stagesRun := [Stage.decode, Stage.invoke]
          encoderCalls := [⟨ctx1, e, deliv, pub1⟩]
          finalizerCalls := List.replicate s.finalizer.length (ctx1, some e) }
    | .ok response =>
        let ares := runAfter s.after ctx1 deliv ch pub1
        let ctx2 := ares.1.1
        let pub2 := ares.1.2
        let evA := ares.2
        let encres := s.enc ctx2 pub2 response
        match encres.2 with
        | some e =>
            let eres := s.errorEncoder ctx2 e deliv ch encres.1
            { events := evB ++ evA ++
                (s.logger "err" e).map (fun kv => Event.log kv.1 kv.2) ++ eres.2
              pub := eres.1
              err := some e
              stagesRun := [Stage.decode, Stage.invoke, Stage.encode]
              encoderCalls := [⟨ctx2, e, deliv, encres.1⟩]
              finalizerCalls := List.replicate s.finalizer.length (ctx2, some e) }
        | none =>
            let pres := s.publishResponse ctx2 deliv ch encres.1
            let pub4 := pres.1.2
            let evP := pres.2
            match pres.1.1 with
            | some e =>
                let eres := s.errorEncoder ctx2 e deliv ch pub4
                { events := evB ++ evA ++ evP ++
                    (s.logger "err" e).map (fun kv => Event.log kv.1 kv.2) ++ eres.2
                  pub := eres.1
                  err := some e
                  stagesRun := [Stage.decode, Stage.invoke, Stage.encode, Stage.publish]
                  encoderCalls := [⟨ctx2, e, deliv, pub4⟩]
                  finalizerCalls := List.replicate s.finalizer.length (ctx2, some e) }
            | none =>
                { events := evB ++ evA ++ evP
                  pub := pub4
                  err := none
                  stagesRun := [Stage.decode, Stage.invoke, Stage.encode, Stage.publish]
                  encoderCalls := []
                  finalizerCalls := List.replicate s.finalizer.length (ctx2, none) }

/-- One hex digit (lower case), as written by the Go JSON encoder. -/
def hexDigit (n : Nat) : Char :=
  if n < 10 then Char.ofNat (48 + n) else Char.ofNat (87 + n)

/-- Escaping of one character by Go's encoding/json string encoder (with its
default HTML escaping of the angle brackets and ampersand). -/
def goJSONEscapeChar (c : Char) : String :=
  if c = '"' then "\\\""
  else if c = '\\' then "\\\\"
  else if c = '\n' then "\\n"
  else if c = '\r' then "\\r"
  else if c = '\t' then "\\t"
  else if c = '<' then "\\u003c"
  else if c = '>' then "\\u003e"
  else if c = '&' then "\\u0026"
  else if c.toNat < 32 then
    String.mk ['\\', 'u', '0', '0', hexDigit (c.toNat / 16), hexDigit (c.toNat % 16)]
  else String.singleton c

/-- A Go JSON string literal for `s`. -/
def goJSONQuote (s : String) : String :=
  "\"" ++ String.join (s.data.map goJSONEscapeChar) ++ "\""

/-- Struct `DefaultErrorResponse`: the error payload struct; its single field
carries the JSON tag "err". -/
structure DefaultErrorResponse where
  error : String
deriving DecidableEq, Repr

/-- Model of `json.Marshal` applied to a `DefaultErrorResponse`: produces the object
with key "err".  (On this payload the Go marshaller cannot fail, but callers
still check the error, so the result type keeps the error case.) -/
def jsonMarshalErrorResponse (r : DefaultErrorResponse) : Except Err String :=
  .ok ("\x7b\"err\":" ++ goJSONQuote r.error ++ "\x7d")

/-- Encoder `DefaultErrorEncoder`: ignores the message; no reply, no ack, no nack. -/
def DefaultErrorEncoder : ErrorEncoder :=
  fun _ctx _err _deliv _ch pub => (pub, [])

/-- Encoder `SingleNackRequeueErrorEncoder`: nack with multiple=false, requeue=true,
then sleep for the context's backoff duration. -/
def SingleNackRequeueErrorEncoder : ErrorEncoder :=
  fun ctx _err deliv _ch pub =>
    let evN := deliv.Nack false true
    let duration := getNackSleepDuration ctx
    (pub, evN ++ [Event.sleep duration])

/-- Encoder `ReplyErrorEncoder`: fills an empty correlation id from the delivery,
resolves the reply target exactly as `publishResponse` does, marshals the
error message as a `DefaultErrorResponse`, and publishes it (discarding the
publish error); on a marshal failure it returns without publishing. -/
def ReplyErrorEncoder : ErrorEncoder :=
  fun ctx err deliv ch pub =>
    let pub := if pub.correlationId = "" then { pub with correlationId := deliv.correlationId }
               else pub
    let replyExchange := getPublishExchange ctx
    let replyTo :=
      let k := getPublishKey ctx
      if k = "" then deliv.replyTo else k
    let response : DefaultErrorResponse := ⟨err⟩
    match jsonMarshalErrorResponse response with
    | .error _ => (pub, [])
    | .ok b =>
        let pub := { pub with body := b }
        let r := ch.Publish replyExchange replyTo false false pub
        (pub, r.2)

/-- Encoder `ReplyAndAckErrorEncoder`: `ReplyErrorEncoder`, then `deliv.Ack(false)`. -/
def ReplyAndAckErrorEncoder : ErrorEncoder :=
  fun ctx err deliv ch pub =>
    let r := ReplyErrorEncoder ctx err deliv ch pub
    (r.1, r.2 ++ deliv.Ack false)

/-- True on the delivery-settling events (ack or nack). -/
def Event.isAckNack : Event → Bool
  | .ack _ => true
  | .nack _ _ => true
  | _ => false

/-- True on publish events. -/
def Event.isPublish : Event → Bool
  | .publish _ _ _ _ _ => true
  | _ => false

/-- A trace settles the delivery in no way. -/
def noAckNack (evs : List Event) : Prop :=
  ∀ ev ∈ evs, ev.isAckNack = false

/- Concrete fixtures used by the witness theorems. -/

/-- A broker channel whose publish always succeeds. -/
def chOK : Channel := ⟨fun _ _ _ _ _ => none⟩

/-- A broker channel whose publish always fails. -/
def chFail : Channel := ⟨fun _ _ _ _ _ => some "pubfail"⟩

/-- A sample delivery. -/
def dOne : Delivery := { correlationId := "abc", replyTo := "q1", body := "req" }

/-- A logger producing one err pair per call. -/
def pairLogger : Logger := fun k v => [(k, v)]

/-- A subscriber (over String request/response) whose decode fails. -/
def sDecFail : Subscriber String String :=
  { e := fun _ r => .ok r
    dec := fun _ _ => .error "E"
    enc := fun _ p r => ({ p with body := r }, none)
    finalizer := [fun _ _ => ()]
    errorEncoder := DefaultErrorEncoder
    logger := pairLogger }

/-- A subscriber on which every stage succeeds. -/
def sAllOK : Subscriber String String :=
  { e := fun _ r => .ok (r ++ "!")
    dec := fun _ d => .ok d.body
    enc := fun _ p r => ({ p with body := r }, none)
    finalizer := [fun _ _ => ()]
    errorEncoder := DefaultErrorEncoder
    logger := pairLogger }

/-- A subscriber whose encode fails. -/
def sEncFail : Subscriber String String :=
  { e := fun _ r => .ok r
    dec := fun _ d => .ok d.body
    enc := fun _ p _ => (p, some "EncErr")
    finalizer := [fun _ _ => ()]
    errorEncoder := DefaultErrorEncoder
    logger := pairLogger }

/-- A before hook setting the reply-key override to "override-q". -/
def hookSetKey : RequestFunc :=
  fun ctx pub _ => ((({ ctx with publishKey := some "override-q" } : Ctx), pub), [])

/-- C3: in publishResponse, an empty correlation id is copied from the
delivery; the publish exchange is the context override (empty when unset);
the routing key is the context reply-key override when set, else the
delivery's reply-to; and Publish is called with mandatory=false and
immediate=false. -/
theorem claim3_publish_resolution {Req Resp : Type} (s : Subscriber Req Resp) (ctx : Ctx)
    (d : Delivery) (ch : Channel) (pub : Publishing) :
    (s.publishResponse ctx d ch pub).2 =
      [Event.publish (getPublishExchange ctx)
        (if getPublishKey ctx = "" then d.replyTo else getPublishKey ctx) false false
        (if pub.correlationId = "" then { pub with correlationId := d.correlationId } else pub)]
    ∧ (s.publishResponse ctx d ch pub).1.2 =
        (if pub.correlationId = "" then { pub with correlationId := d.correlationId } else pub)
    ∧ (s.publishResponse ctx d ch pub).1.1 =
        ch.publishErr (getPublishExchange ctx)
          (if getPublishKey ctx = "" then d.replyTo else getPublishKey ctx) false false
          (if pub.correlationId = "" then { pub with correlationId := d.correlationId } else pub)
    ∧ (ctx.publishExchange = none → getPublishExchange ctx = "")
    ∧ (∀ x, ctx.publishExchange = some x → getPublishExchange ctx = x)
    ∧ (ctx.publishKey = none →
        (if getPublishKey ctx = "" then d.replyTo else getPublishKey ctx) = d.replyTo)
    ∧ (∀ k, ctx.publishKey = some k → k ≠ "" →
        (if getPublishKey ctx = "" then d.replyTo else getPublishKey ctx) = k) := by
  refine ⟨rfl, rfl, rfl, ?_, ?_, ?_, ?_⟩
  · intro h; simp [getPublishExchange, h]
  · intro x h; simp [getPublishExchange, h]
  · intro h; simp [getPublishKey, h]
  · intro k h hk; simp [getPublishKey, h, hk]

/-- Witness for C3 at concrete inputs: with a reply-key override the key is
the override; without one it is the delivery's reply-to. -/
theorem claim3_witness :
    (sAllOK.publishResponse { publishKey := some "k2" } dOne chOK {}).2 =
      [Event.publish "" "k2" false false { correlationId := "abc" }] ∧
    (sAllOK.publishResponse {} dOne chOK { correlationId := "xyz" }).2 =
      [Event.publish "" "q1" false false { correlationId := "xyz" }] := by
  constructor
  · have h := (claim3_publish_resolution sAllOK { publishKey := some "k2" } dOne chOK {}).1
    have hk := (claim3_publish_resolution sAllOK { publishKey := some "k2" } dOne chOK
      ({} : Publishing)).2.2.2.2.2.2 "k2" rfl (by decide)
    rw [h, hk]; decide
  · have h := (claim3_publish_resolution sAllOK {} dOne chOK { correlationId := "xyz" }).1
    have hk := (claim3_publish_resolution sAllOK {} dOne chOK
      ({ correlationId := "xyz" } : Publishing)).2.2.2.2.2.1 rfl
    rw [h, hk]; decide

/-- C9: publishResponse only ever writes the correlation id, and only when it
is empty; a non-empty correlation id (and every other field) is preserved. -/
theorem claim9_publish_frame {Req Resp : Type} (s : Subscriber Req Resp) (ctx : Ctx)
    (d : Delivery) (ch : Channel) (pub : Publishing) :
    (pub.correlationId ≠ "" → (s.publishResponse ctx d ch pub).1.2 = pub)
    ∧ (pub.correlationId = "" →
        (s.publishResponse ctx d ch pub).1.2 = { pub with correlationId := d.correlationId })
    ∧ (s.publishResponse ctx d ch pub).1.2.body = pub.body
    ∧ (s.publishResponse ctx d ch pub).1.2.replyTo = pub.replyTo
    ∧ (s.publishResponse ctx d ch pub).1.2.contentType = pub.contentType
    ∧ (s.publishResponse ctx d ch pub).1.2.messageId = pub.messageId := by
  refine ⟨?_, ?_, ?_, ?_, ?_, ?_⟩
  · intro h; simp [Subscriber.publishResponse, Channel.Publish, h]
  · intro h; simp [Subscriber.publishResponse, Channel.Publish, h]
  all_goals
    simp only [Subscriber.publishResponse, Channel.Publish]
    split <;> rfl

/-- Witness for C9: a publication with a non-empty correlation id passes
through publishResponse completely unchanged. -/
theorem claim9_witness :
    (sAllOK.publishResponse {} dOne chOK { correlationId := "xyz", body := "b" }).1.2 =
      { correlationId := "xyz", body := "b" } := by
  exact (claim9_publish_frame sAllOK {} dOne chOK
    { correlationId := "xyz", body := "b" }).1 (by decide)

/-- C6: ReplyErrorEncoder resolves the correlation id and the reply target
(exchange and key, with the context override falling back to the delivery's
reply-to) exactly as the success-path publishResponse does, sets the body to
the JSON serialization of the structured error payload carrying the error's
message, publishes it once, and neither acks nor nacks the delivery. -/
theorem claim6_reply_matches_publish {Req Resp : Type} (s : Subscriber Req Resp)
    (ctx : Ctx) (e : Err) (d : Delivery) (ch : Channel) (pub pub₂ : Publishing) :
    ∃ b : String,
      jsonMarshalErrorResponse ⟨e⟩ = .ok b
      ∧ (ReplyErrorEncoder ctx e d ch pub).1.body = b
      ∧ (ReplyErrorEncoder ctx e d ch pub).1.correlationId =
          (if pub.correlationId = "" then d.correlationId else pub.correlationId)
      ∧ (s.publishResponse ctx d ch pub₂).1.2.correlationId =
          (if pub₂.correlationId = "" then d.correlationId else pub₂.correlationId)
      ∧ (∃ ex key,
          (ReplyErrorEncoder ctx e d ch pub).2 =
            [Event.publish ex key false false (ReplyErrorEncoder ctx e d ch pub).1]
          ∧ (s.publishResponse ctx d ch pub₂).2 =
            [Event.publish ex key false false (s.publishResponse ctx d ch pub₂).1.2])
      ∧ (ReplyErrorEncoder ctx e d ch pub).2.filter Event.isAckNack = [] := by
  refine ⟨"\x7b\"err\":" ++ goJSONQuote e ++ "\x7d", rfl, rfl, ?_, ?_, ?_, ?_⟩
  · by_cases h : pub.correlationId = "" <;>
      simp [ReplyErrorEncoder, Channel.Publish, jsonMarshalErrorResponse, h]
  · by_cases h : pub₂.correlationId = "" <;>
      simp [Subscriber.publishResponse, Channel.Publish, h]
  · exact ⟨getPublishExchange ctx,
      if getPublishKey ctx = "" then d.replyTo else getPublishKey ctx, rfl, rfl⟩
  · rfl

/-- Witness for C6 at concrete inputs: the error reply goes to the same
target as a success reply would, carries the delivery's correlation id and
the JSON error payload, and the trace settles nothing. -/
theorem claim6_witness :
    (ReplyErrorEncoder {} "boom" dOne chOK {}).2 =
      [Event.publish "" "q1" false false
        { correlationId := "abc", body := "\x7b\"err\":\"boom\"\x7d" }] ∧
    (ReplyErrorEncoder {} "boom" dOne chOK {}).2.filter Event.isAckNack = [] := by
  obtain ⟨b, hb, hbody, hcorr, -, -, hno⟩ :=
    claim6_reply_matches_publish sAllOK {} "boom" dOne chOK {} ({} : Publishing)
  exact ⟨by decide, hno⟩

/-- C7: the Reply-and-acknowledge strategy produces exactly one publish whose
body is the JSON object with key "err" and the error's message, followed by
exactly one ack of the original delivery with multiple=false. -/
theorem claim7_reply_and_ack_trace (ctx : Ctx) (e : Err) (d : Delivery) (ch : Channel)
    (pub : Publishing) :
    ∃ ex key m,
      (ReplyAndAckErrorEncoder ctx e d ch pub).2 =
        [Event.publish ex key false false m, Event.ack false]
      ∧ m.body = "\x7b\"err\":" ++ goJSONQuote e ++ "\x7d" := by
  refine ⟨_, _, _, rfl, rfl⟩

/-- Witness for C7: the concrete trace for the error message "boom". -/
theorem claim7_witness :
    (ReplyAndAckErrorEncoder {} "boom" dOne chOK {}).2 =
      [Event.publish "" "q1" false false
        { correlationId := "abc", body := "\x7b\"err\":\"boom\"\x7d" },
       Event.ack false] := by
  obtain ⟨ex, key, m, htr, hbody⟩ := claim7_reply_and_ack_trace {} "boom" dOne chOK {}
  have hconc : (ReplyAndAckErrorEncoder {} "boom" dOne chOK {}).2 =
      [Event.publish "" "q1" false false
        { correlationId := "abc", body := "\x7b\"err\":\"boom\"\x7d" },
       Event.ack false] := by decide
  exact hconc

/-- C8: the Reject-and-requeue strategy nacks exactly once with
multiple=false and requeue=true, then sleeps for the context's backoff
override (the fixed fallback when unset); with a 50ms override the sleep is
50ms; no reply is published. -/
theorem claim8_nack_requeue_backoff (ctx : Ctx) (e : Err) (d : Delivery) (ch : Channel)
    (pub : Publishing) :
    (SingleNackRequeueErrorEncoder ctx e d ch pub).2 =
      [Event.nack false true, Event.sleep (getNackSleepDuration ctx)]
    ∧ (ctx.nackSleepDuration = some 50 →
        (SingleNackRequeueErrorEncoder ctx e d ch pub).2 =
          [Event.nack false true, Event.sleep 50])
    ∧ (ctx.nackSleepDuration = none → getNackSleepDuration ctx = defaultNackSleepDuration)
    ∧ (SingleNackRequeueErrorEncoder ctx e d ch pub).2.filter Event.isPublish = [] := by
  refine ⟨rfl, ?_, ?_, rfl⟩
  · intro h
    simp [SingleNackRequeueErrorEncoder, Delivery.Nack, getNackSleepDuration, h]
  · intro h
    simp [getNackSleepDuration, h]

/-- Witness for C8: with a 50ms backoff override the trace is the nack
(multiple=false, requeue=true) followed by a 50ms sleep. -/
theorem claim8_witness :
    (SingleNackRequeueErrorEncoder { nackSleepDuration := some 50 } "E" dOne chOK {}).2 =
      [Event.nack false true, Event.sleep 50] := by
  exact (claim8_nack_requeue_backoff { nackSleepDuration := some 50 } "E" dOne chOK {}).2.1 rfl

/-- C10: ReplyAndAckErrorEncoder acks the delivery unconditionally: for every
channel behaviour (including one whose publish fails) the trace is the inner
reply trace followed by exactly one ack with multiple=false, last in the
trace; the inner encoder itself never settles the delivery. -/
theorem claim10_ack_unconditional (ctx : Ctx) (e : Err) (d : Delivery) (ch : Channel)
    (pub : Publishing) :
    (ReplyAndAckErrorEncoder ctx e d ch pub).2 =
      (ReplyErrorEncoder ctx e d ch pub).2 ++ [Event.ack false]
    ∧ (ReplyAndAckErrorEncoder ctx e d ch pub).2.count (Event.ack false) = 1
    ∧ (ReplyAndAckErrorEncoder ctx e d ch pub).2.getLast? = some (Event.ack false) := by
  refine ⟨rfl, ?_, ?_⟩
  · simp [ReplyAndAckErrorEncoder, ReplyErrorEncoder, jsonMarshalErrorResponse,
      Channel.Publish, Delivery.Ack, List.count_cons]
  · simp [ReplyAndAckErrorEncoder, ReplyErrorEncoder, jsonMarshalErrorResponse,
      Channel.Publish, Delivery.Ack]

/-- Witness for C10: with a channel whose publish always fails, the ack still
happens, after the (failed) publish attempt. -/
theorem claim10_witness :
    (ReplyAndAckErrorEncoder {} "boom" dOne chFail {}).2.count (Event.ack false) = 1 ∧
    (ReplyAndAckErrorEncoder {} "boom" dOne chFail {}).2.getLast? = some (Event.ack false) ∧
    chFail.publishErr "" "q1" false false
      { correlationId := "abc", body := "\x7b\"err\":\"boom\"\x7d" } = some "pubfail" := by
  exact ⟨(claim10_ack_unconditional {} "boom" dOne chFail {}).2.1,
    (claim10_ack_unconditional {} "boom" dOne chFail {}).2.2, rfl⟩

/-- Characterization of a run whose decode stage fails. -/
theorem serve_decode_error {Req Resp : Type} (s : Subscriber Req Resp) (ch : Channel)
    (d : Delivery) (c1 : Ctx) (p1 : Publishing) (evB : List Event) (e : Err)
    (hb : runBefore s.before {} {} d = ((c1, p1), evB))
    (hdec : s.dec c1 d = .error e) :
    s.ServeDelivery ch d =
      { events := evB ++ (s.logger "err" e).map (fun kv => Event.log kv.1 kv.2) ++
          (s.errorEncoder c1 e d ch p1).2
        pub := (s.errorEncoder c1 e d ch p1).1
        err := some e
        stagesRun := [Stage.decode]
        encoderCalls := [⟨c1, e, d, p1⟩]
        finalizerCalls := List.replicate s.finalizer.length (c1, some e) } := by
  simp only [Subscriber.ServeDelivery, hb, hdec]

/-- Characterization of a run whose endpoint invocation fails. -/
theorem serve_invoke_error {Req Resp : Type} (s : Subscriber Req Resp) (ch : Channel)
    (d : Delivery) (c1 : Ctx) (p1 : Publishing) (evB : List Event) (req : Req) (e : Err)
    (hb : runBefore s.before {} {} d = ((c1, p1), evB))
    (hdec : s.dec c1 d = .ok req)
    (he : s.e c1 req = .error e) :
    s.ServeDelivery ch d =
      { events := evB ++ (s.logger "err" e).map (fun kv => Event.log kv.1 kv.2) ++
          (s.errorEncoder c1 e d ch p1).2
        pub := (s.errorEncoder c1 e d ch p1).1
        err := some e
        stagesRun := [Stage.decode, Stage.invoke]
        encoderCalls := [⟨c1, e, d, p1⟩]
        finalizerCalls := List.replicate s.finalizer.length (c1, some e) } := by
  simp only [Subscriber.ServeDelivery, hb, hdec, he]

/-- Characterization of a run whose encode stage fails. -/
theorem serve_encode_error {Req Resp : Type} (s : Subscriber Req Resp) (ch : Channel)
    (d : Delivery) (c1 c2 : Ctx) (p1 p2 : Publishing) (evB evA : List Event)
    (req : Req) (resp : Resp) (e : Err)
    (hb : runBefore s.before {} {} d = ((c1, p1), evB))
    (hdec : s.dec c1 d = .ok req)
    (he : s.e c1 req = .ok resp)
    (ha : runAfter s.after c1 d ch p1 = ((c2, p2), evA))
    (henc : (s.enc c2 p2 resp).2 = some e) :
    s.ServeDelivery ch d =
      { events := evB ++ evA ++ (s.logger "err" e).map (fun kv => Event.log kv.1 kv.2) ++
          (s.errorEncoder c2 e d ch (s.enc c2 p2 resp).1).2
        pub := (s.errorEncoder c2 e d ch (s.enc c2 p2 resp).1).1
        err := some e
        stagesRun := [Stage.decode, Stage.invoke, Stage.encode]
        encoderCalls := [⟨c2, e, d, (s.enc c2 p2 resp).1⟩]
        finalizerCalls := List.replicate s.finalizer.length (c2, some e) } := by
  simp only [Subscriber.ServeDelivery, hb, hdec, he, ha, henc]

/-- Characterization of a run whose publish stage fails. -/
theorem serve_publish_error {Req Resp : Type} (s : Subscriber Req Resp) (ch : Channel)
    (d : Delivery) (c1 c2 : Ctx) (p1 p2 : Publishing) (evB evA : List Event)
    (req : Req) (resp : Resp) (e : Err)
    (hb : runBefore s.before {} {} d = ((c1, p1), evB))
    (hdec : s.dec c1 d = .ok req)
    (he : s.e c1 req = .ok resp)
    (ha : runAfter s.after c1 d ch p1 = ((c2, p2), evA))
    (henc : (s.enc c2 p2 resp).2 = none)
    (hpub : (s.publishResponse c2 d ch (s.enc c2 p2 resp).1).1.1 = some e) :
    s.ServeDelivery ch d =
      { events := evB ++ evA ++ (s.publishResponse c2 d ch (s.enc c2 p2 resp).1).2 ++
          (s.logger "err" e).map (fun kv => Event.log kv.1 kv.2) ++
          (s.errorEncoder c2 e d ch
            (s.publishResponse c2 d ch (s.enc c2 p2 resp).1).1.2).2
        pub := (s.errorEncoder c2 e d ch
          (s.publishResponse c2 d ch (s.enc c2 p2 resp).1).1.2).1
        err := some e
        stagesRun := [Stage.decode, Stage.invoke, Stage.encode, Stage.publish]
        encoderCalls := [⟨c2, e, d, (s.publishResponse c2 d ch (s.enc c2 p2 resp).1).1.2⟩]
        finalizerCalls := List.replicate s.finalizer.length (c2, some e) } := by
  simp only [Subscriber.ServeDelivery, hb, hdec, he, ha, henc, hpub]

/-- Characterization of a fully successful run. -/
theorem serve_success {Req Resp : Type} (s : Subscriber Req Resp) (ch : Channel)
    (d : Delivery) (c1 c2 : Ctx) (p1 p2 : Publishing) (evB evA : List Event)
    (req : Req) (resp : Resp)
    (hb : runBefore s.before {} {} d = ((c1, p1), evB))
    (hdec : s.dec c1 d = .ok req)
    (he : s.e c1 req = .ok resp)
    (ha : runAfter s.after c1 d ch p1 = ((c2, p2), evA))
    (henc : (s.enc c2 p2 resp).2 = none)
    (hpub : (s.publishResponse c2 d ch (s.enc c2 p2 resp).1).1.1 = none) :
    s.ServeDelivery ch d =
      { events := evB ++ evA ++ (s.publishResponse c2 d ch (s.enc c2 p2 resp).1).2
        pub := (s.publishResponse c2 d ch (s.enc c2 p2 resp).1).1.2
        err := none
        stagesRun := [Stage.decode, Stage.invoke, Stage.encode, Stage.publish]
        encoderCalls := []
        finalizerCalls := List.replicate s.finalizer.length (c2, none) } := by
  simp only [Subscriber.ServeDelivery, hb, hdec, he, ha, henc, hpub]

/-- Hooks appended to a before-hook list run after the existing ones, on
their output state, and their events follow in order. -/
theorem runBefore_append (fs gs : List RequestFunc) (ctx : Ctx) (pub : Publishing)
    (d : Delivery) :
    runBefore (fs ++ gs) ctx pub d =
      ((runBefore gs (runBefore fs ctx pub d).1.1 (runBefore fs ctx pub d).1.2 d).1,
       (runBefore fs ctx pub d).2 ++
         (runBefore gs (runBefore fs ctx pub d).1.1 (runBefore fs ctx pub d).1.2 d).2) := by
  induction fs generalizing ctx pub with
  | nil => simp [runBefore]
  | cons f fs ih => simp [runBefore, ih]

/-- Hooks appended to an after-hook list run after the existing ones. -/
theorem runAfter_append (fs gs : List SubscriberResponseFunc) (ctx : Ctx) (d : Delivery)
    (ch : Channel) (pub : Publishing) :
    runAfter (fs ++ gs) ctx d ch pub =
      ((runAfter gs (runAfter fs ctx d ch pub).1.1 d ch (runAfter fs ctx d ch pub).1.2).1,
       (runAfter fs ctx d ch pub).2 ++
         (runAfter gs (runAfter fs ctx d ch pub).1.1 d ch (runAfter fs ctx d ch pub).1.2).2) := by
  induction fs generalizing ctx pub with
  | nil => simp [runAfter]
  | cons f fs ih => simp [runAfter, ih]

/-- A concatenation settles nothing iff both parts settle nothing. -/
theorem noAckNack_append {a b : List Event} :
    noAckNack (a ++ b) ↔ noAckNack a ∧ noAckNack b := by
  simp [noAckNack, List.mem_append, or_imp, forall_and]

/-- Log events settle nothing. -/
theorem noAckNack_log_map (l : List (String × String)) :
    noAckNack (l.map fun kv => Event.log kv.1 kv.2) := by
  intro ev h
  rcases List.mem_map.mp h with ⟨kv, -, rfl⟩
  rfl

/-- The publish stage settles nothing. -/
theorem noAckNack_publishResponse {Req Resp : Type} (s : Subscriber Req Resp) (ctx : Ctx)
    (d : Delivery) (ch : Channel) (pub : Publishing) :
    noAckNack (s.publishResponse ctx d ch pub).2 := by
  intro ev h
  rcases List.mem_singleton.mp h with rfl
  rfl

/-- If every before hook settles nothing, neither does running them all. -/
theorem runBefore_noAckNack (fs : List RequestFunc) (d : Delivery)
    (h : ∀ f ∈ fs, ∀ c p, noAckNack (f c p d).2) (ctx : Ctx) (pub : Publishing) :
    noAckNack (runBefore fs ctx pub d).2 := by
  induction fs generalizing ctx pub with
  | nil => intro ev hm; cases hm
  | cons f fs ih =>
      have hcons : noAckNack ((f ctx pub d).2 ++
          (runBefore fs (f ctx pub d).1.1 (f ctx pub d).1.2 d).2) :=
        noAckNack_append.mpr ⟨h f (List.mem_cons_self f fs) ctx pub,
          ih (fun g hg => h g (List.mem_cons_of_mem f hg)) _ _⟩
      exact hcons

/-- If every after hook settles nothing, neither does running them all. -/
theorem runAfter_noAckNack (fs : List SubscriberResponseFunc) (d : Delivery) (ch : Channel)
    (h : ∀ f ∈ fs, ∀ c p, noAckNack (f c d ch p).2) (ctx : Ctx) (pub : Publishing) :
    noAckNack (runAfter fs ctx d ch pub).2 := by
  induction fs generalizing ctx pub with
  | nil => intro ev hm; cases hm
  | cons f fs ih =>
      have hcons : noAckNack ((f ctx d ch pub).2 ++
          (runAfter fs (f ctx d ch pub).1.1 d ch (f ctx d ch pub).1.2).2) :=
        noAckNack_append.mpr ⟨h f (List.mem_cons_self f fs) ctx pub,
          ih (fun g hg => h g (List.mem_cons_of_mem f hg)) _ _⟩
      exact hcons

/-- Eventless before hooks leave an empty before trace. -/
theorem runBefore_no_events (fs : List RequestFunc) (d : Delivery)
    (h : ∀ f ∈ fs, ∀ c p, (f c p d).2 = []) (ctx : Ctx) (pub : Publishing) :
    (runBefore fs ctx pub d).2 = [] := by
  induction fs generalizing ctx pub with
  | nil => rfl
  | cons f fs ih =>
      show (f ctx pub d).2 ++ (runBefore fs (f ctx pub d).1.1 (f ctx pub d).1.2 d).2 = []
      rw [h f (List.mem_cons_self f fs) ctx pub,
        ih (fun g hg => h g (List.mem_cons_of_mem f hg)) _ _]
      rfl

/-- Eventless after hooks leave an empty after trace. -/
theorem runAfter_no_events (fs : List SubscriberResponseFunc) (d : Delivery) (ch : Channel)
    (h : ∀ f ∈ fs, ∀ c p, (f c d ch p).2 = []) (ctx : Ctx) (pub : Publishing) :
    (runAfter fs ctx d ch pub).2 = [] := by
  induction fs generalizing ctx pub with
  | nil => rfl
  | cons f fs ih =>
      show (f ctx d ch pub).2 ++ (runAfter fs (f ctx d ch pub).1.1 d ch (f ctx d ch pub).1.2).2 = []
      rw [h f (List.mem_cons_self f fs) ctx pub,
        ih (fun g hg => h g (List.mem_cons_of_mem f hg)) _ _]
      rfl

/-- C1: whenever a stage (decode, invoke, encode, publish) fails,
ServeDelivery logs the error, invokes the error encoder exactly once with
that error, the original delivery and the current Publication, and executes
no later stage: a decode failure leaves only the decode stage run (no invoke,
no publish), and an encode failure never reaches the publish stage. -/
theorem claim1_stage_failure {Req Resp : Type} (s : Subscriber Req Resp) (ch : Channel)
    (d : Delivery) :
    (∀ c1 p1 evB e, runBefore s.before {} {} d = ((c1, p1), evB) →
      s.dec c1 d = .error e →
        (s.ServeDelivery ch d).encoderCalls = [⟨c1, e, d, p1⟩] ∧
        (s.ServeDelivery ch d).stagesRun = [Stage.decode] ∧
        (s.ServeDelivery ch d).events = evB ++
          (s.logger "err" e).map (fun kv => Event.log kv.1 kv.2) ++
          (s.errorEncoder c1 e d ch p1).2 ∧
        (s.ServeDelivery ch d).err = some e) ∧
    (∀ c1 p1 evB req e, runBefore s.before {} {} d = ((c1, p1), evB) →
      s.dec c1 d = .ok req → s.e c1 req = .error e →
        (s.ServeDelivery ch d).encoderCalls = [⟨c1, e, d, p1⟩] ∧
        (s.ServeDelivery ch d).stagesRun = [Stage.decode, Stage.invoke] ∧
        (s.ServeDelivery ch d).events = evB ++
          (s.logger "err" e).map (fun kv => Event.log kv.1 kv.2) ++
          (s.errorEncoder c1 e d ch p1).2 ∧
        (s.ServeDelivery ch d).err = some e) ∧
    (∀ c1 p1 evB req resp c2 p2 evA e, runBefore s.before {} {} d = ((c1, p1), evB) →
      s.dec c1 d = .ok req → s.e c1 req = .ok resp →
      runAfter s.after c1 d ch p1 = ((c2, p2), evA) →
      (s.enc c2 p2 resp).2 = some e →
        (s.ServeDelivery ch d).encoderCalls = [⟨c2, e, d, (s.enc c2 p2 resp).1⟩] ∧
        (s.ServeDelivery ch d).stagesRun = [Stage.decode, Stage.invoke, Stage.encode] ∧
        (s.ServeDelivery ch d).events = evB ++ evA ++
          (s.logger "err" e).map (fun kv => Event.log kv.1 kv.2) ++
          (s.errorEncoder c2 e d ch (s.enc c2 p2 resp).1).2 ∧
        (s.ServeDelivery ch d).err = some e) ∧
    (∀ c1 p1 evB req resp c2 p2 evA e, runBefore s.before {} {} d = ((c1, p1), evB) →
      s.dec c1 d = .ok req → s.e c1 req = .ok resp →
      runAfter s.after c1 d ch p1 = ((c2, p2), evA) →
      (s.enc c2 p2 resp).2 = none →
      (s.publishResponse c2 d ch (s.enc c2 p2 resp).1).1.1 = some e →
        (s.ServeDelivery ch d).encoderCalls =
          [⟨c2, e, d, (s.publishResponse c2 d ch (s.enc c2 p2 resp).1).1.2⟩] ∧
        (s.ServeDelivery ch d).events = evB ++ evA ++
          (s.publishResponse c2 d ch (s.enc c2 p2 resp).1).2 ++
          (s.logger "err" e).map (fun kv => Event.log kv.1 kv.2) ++
          (s.errorEncoder c2 e d ch
            (s.publishResponse c2 d ch (s.enc c2 p2 resp).1).1.2).2 ∧
        (s.ServeDelivery ch d).err = some e) := by
  refine ⟨?_, ?_, ?_, ?_⟩
  · intro c1 p1 evB e hb hdec
    rw [serve_decode_error s ch d c1 p1 evB e hb hdec]
    exact ⟨rfl, rfl, rfl, rfl⟩
  · intro c1 p1 evB req e hb hdec he
    rw [serve_invoke_error s ch d c1 p1 evB req e hb hdec he]
    exact ⟨rfl, rfl, rfl, rfl⟩
  · intro c1 p1 evB req resp c2 p2 evA e hb hdec he ha henc
    rw [serve_encode_error s ch d c1 c2 p1 p2 evB evA req resp e hb hdec he ha henc]
    exact ⟨rfl, rfl, rfl, rfl⟩
  · intro c1 p1 evB req resp c2 p2 evA e hb hdec he ha henc hpub
    rw [serve_publish_error s ch d c1 c2 p1 p2 evB evA req resp e hb hdec he ha henc hpub]
    exact ⟨rfl, rfl, rfl⟩

/-- Witness for C1: a failing decode ("E") yields exactly one error-encoder
invocation carrying "E" and the original delivery, only the decode stage run
(no invoke, no publish), and a trace holding just the logged error. -/
theorem claim1_witness :
    (sDecFail.ServeDelivery chOK dOne).encoderCalls =
      [{ ctx := {}, err := "E", deliv := dOne, pub := {} }] ∧
    (sDecFail.ServeDelivery chOK dOne).stagesRun = [Stage.decode] ∧
    (sDecFail.ServeDelivery chOK dOne).events = [Event.log "err" "E"] := by
  have h := (claim1_stage_failure sDecFail chOK dOne).1 {} {} [] "E" rfl rfl
  exact ⟨h.1, h.2.1, by decide⟩

/-- C2: every registered finalizer is invoked exactly once, at the end of
processing, with the terminal error: the failing stage's error on any
failure, and nil when decode, invoke, encode and publish all succeed. -/
theorem claim2_finalizer_terminal {Req Resp : Type} (s : Subscriber Req Resp) (ch : Channel)
    (d : Delivery) :
    (∃ c, (s.ServeDelivery ch d).finalizerCalls =
        List.replicate s.finalizer.length (c, (s.ServeDelivery ch d).err)) ∧
    (∀ c1 p1 evB req resp c2 p2 evA,
      runBefore s.before {} {} d = ((c1, p1), evB) →
      s.dec c1 d = .ok req → s.e c1 req = .ok resp →
      runAfter s.after c1 d ch p1 = ((c2, p2), evA) →
      (s.enc c2 p2 resp).2 = none →
      (s.publishResponse c2 d ch (s.enc c2 p2 resp).1).1.1 = none →
        (s.ServeDelivery ch d).err = none ∧
        (s.ServeDelivery ch d).finalizerCalls =
          List.replicate s.finalizer.length (c2, none)) := by
  constructor
  · rcases hb : runBefore s.before {} {} d with ⟨⟨c1, p1⟩, evB⟩
    rcases hdec : s.dec c1 d with e | req
    · rw [serve_decode_error s ch d c1 p1 evB e hb hdec]; exact ⟨c1, rfl⟩
    · rcases he : s.e c1 req with e | resp
      · rw [serve_invoke_error s ch d c1 p1 evB req e hb hdec he]; exact ⟨c1, rfl⟩
      · rcases ha : runAfter s.after c1 d ch p1 with ⟨⟨c2, p2⟩, evA⟩
        rcases henc : (s.enc c2 p2 resp).2 with - | e
        · rcases hpub : (s.publishResponse c2 d ch (s.enc c2 p2 resp).1).1.1 with - | e
          · rw [serve_success s ch d c1 c2 p1 p2 evB evA req resp hb hdec he ha henc hpub]
            exact ⟨c2, rfl⟩
          · rw [serve_publish_error s ch d c1 c2 p1 p2 evB evA req resp e hb hdec he ha henc
              hpub]
            exact ⟨c2, rfl⟩
        · rw [serve_encode_error s ch d c1 c2 p1 p2 evB evA req resp e hb hdec he ha henc]
          exact ⟨c2, rfl⟩
  · intro c1 p1 evB req resp c2 p2 evA hb hdec he ha henc hpub
    rw [serve_success s ch d c1 c2 p1 p2 evB evA req resp hb hdec he ha henc hpub]
    exact ⟨rfl, rfl⟩

/-- Witness for C2: on an all-success run the single registered finalizer is
called exactly once with a nil error. -/
theorem claim2_witness :
    (sAllOK.ServeDelivery chOK dOne).err = none ∧
    (sAllOK.ServeDelivery chOK dOne).finalizerCalls = [({}, none)] := by
  have h := (claim2_finalizer_terminal sAllOK chOK dOne).2 {} {} [] "req" "req!" {} {} []
    rfl rfl rfl rfl rfl rfl
  exact ⟨h.1, by decide⟩

/-- C4: hooks run in registration order (appended hooks run after the
existing ones, on their output context and publication, with their events
following), and on the success path the stages run in the fixed order
before hooks, decode, invoke, after hooks, encode, publish, with no error. -/
theorem claim4_success_order {Req Resp : Type} (s : Subscriber Req Resp) (ch : Channel)
    (d : Delivery) :
    (∀ (fs gs : List RequestFunc) (ctx : Ctx) (pub : Publishing),
      runBefore (fs ++ gs) ctx pub d =
        ((runBefore gs (runBefore fs ctx pub d).1.1 (runBefore fs ctx pub d).1.2 d).1,
         (runBefore fs ctx pub d).2 ++
           (runBefore gs (runBefore fs ctx pub d).1.1 (runBefore fs ctx pub d).1.2 d).2)) ∧
    (∀ (fs gs : List SubscriberResponseFunc) (ctx : Ctx) (pub : Publishing),
      runAfter (fs ++ gs) ctx d ch pub =
        ((runAfter gs (runAfter fs ctx d ch pub).1.1 d ch (runAfter fs ctx d ch pub).1.2).1,
         (runAfter fs ctx d ch pub).2 ++
           (runAfter gs (runAfter fs ctx d ch pub).1.1 d ch
             (runAfter fs ctx d ch pub).1.2).2)) ∧
    (∀ c1 p1 evB req resp c2 p2 evA,
      runBefore s.before {} {} d = ((c1, p1), evB) →
      s.dec c1 d = .ok req → s.e c1 req = .ok resp →
      runAfter s.after c1 d ch p1 = ((c2, p2), evA) →
      (s.enc c2 p2 resp).2 = none →
      (s.publishResponse c2 d ch (s.enc c2 p2 resp).1).1.1 = none →
        (s.ServeDelivery ch d).stagesRun =
          [Stage.decode, Stage.invoke, Stage.encode, Stage.publish] ∧
        (s.ServeDelivery ch d).events =
          evB ++ evA ++ (s.publishResponse c2 d ch (s.enc c2 p2 resp).1).2 ∧
        (s.ServeDelivery ch d).err = none) := by
  refine ⟨fun fs gs ctx pub => runBefore_append fs gs ctx pub d,
    fun fs gs ctx pub => runAfter_append fs gs ctx d ch pub, ?_⟩
  intro c1 p1 evB req resp c2 p2 evA hb hdec he ha henc hpub
  rw [serve_success s ch d c1 c2 p1 p2 evB evA req resp hb hdec he ha henc hpub]
  exact ⟨rfl, rfl, rfl⟩

/-- Witness for C4: a fully successful concrete run executes all four stages
in order and its only event is the final publish of the encoded response. -/
theorem claim4_witness :
    (sAllOK.ServeDelivery chOK dOne).stagesRun =
      [Stage.decode, Stage.invoke, Stage.encode, Stage.publish] ∧
    (sAllOK.ServeDelivery chOK dOne).events =
      [Event.publish "" "q1" false false { correlationId := "abc", body := "req!" }] := by
  have h := (claim4_success_order sAllOK chOK dOne).2.2 {} {} [] "req" "req!" {} {} []
    rfl rfl rfl rfl rfl rfl
  exact ⟨h.1, by decide⟩

/-- C5: the orchestrator itself never acks or nacks: if no hook and not the
error encoder settles the delivery, no run's trace settles it; and with the
default (silent) error encoder and eventless hooks, a run failing before the
publish stage produces nothing but log events — no ack, no nack, no reply. -/
theorem claim5_orchestrator_never_settles {Req Resp : Type} (s : Subscriber Req Resp)
    (ch : Channel) (d : Delivery) :
    ((∀ f ∈ s.before, ∀ c p, noAckNack (f c p d).2) →
     (∀ f ∈ s.after, ∀ c p, noAckNack (f c d ch p).2) →
     (∀ c e p, noAckNack (s.errorEncoder c e d ch p).2) →
     noAckNack (s.ServeDelivery ch d).events) ∧
    (s.errorEncoder = DefaultErrorEncoder →
     (∀ f ∈ s.before, ∀ c p, (f c p d).2 = []) →
     (∀ f ∈ s.after, ∀ c p, (f c d ch p).2 = []) →
     ∀ e, (s.ServeDelivery ch d).err = some e →
     Stage.publish ∉ (s.ServeDelivery ch d).stagesRun →
     ∀ ev ∈ (s.ServeDelivery ch d).events, ∃ k v, ev = Event.log k v) := by
  constructor
  · intro hB hA hE
    have hbN : noAckNack (runBefore s.before {} {} d).2 := runBefore_noAckNack s.before d hB {} {}
    rcases hb : runBefore s.before {} {} d with ⟨⟨c1, p1⟩, evB⟩
    rw [hb] at hbN
    rcases hdec : s.dec c1 d with e | req
    · rw [serve_decode_error s ch d c1 p1 evB e hb hdec]
      exact noAckNack_append.mpr ⟨noAckNack_append.mpr ⟨hbN, noAckNack_log_map _⟩, hE c1 e p1⟩
    · rcases he : s.e c1 req with e | resp
      · rw [serve_invoke_error s ch d c1 p1 evB req e hb hdec he]
        exact noAckNack_append.mpr ⟨noAckNack_append.mpr ⟨hbN, noAckNack_log_map _⟩, hE c1 e p1⟩
      · have haN : noAckNack (runAfter s.after c1 d ch p1).2 :=
          runAfter_noAckNack s.after d ch hA c1 p1
        rcases ha : runAfter s.after c1 d ch p1 with ⟨⟨c2, p2⟩, evA⟩
        rw [ha] at haN
        rcases henc : (s.enc c2 p2 resp).2 with - | e
        · rcases hpub : (s.publishResponse c2 d ch (s.enc c2 p2 resp).1).1.1 with - | e
          · rw [serve_success s ch d c1 c2 p1 p2 evB evA req resp hb hdec he ha henc hpub]
            exact noAckNack_append.mpr ⟨noAckNack_append.mpr ⟨hbN, haN⟩,
              noAckNack_publishResponse s c2 d ch (s.enc c2 p2 resp).1⟩
          · rw [serve_publish_error s ch d c1 c2 p1 p2 evB evA req resp e hb hdec he ha henc
              hpub]
            exact noAckNack_append.mpr ⟨noAckNack_append.mpr
              ⟨noAckNack_append.mpr ⟨noAckNack_append.mpr ⟨hbN, haN⟩,
                noAckNack_publishResponse s c2 d ch (s.enc c2 p2 resp).1⟩,
               noAckNack_log_map _⟩,
              hE c2 e (s.publishResponse c2 d ch (s.enc c2 p2 resp).1).1.2⟩
        · rw [serve_encode_error s ch d c1 c2 p1 p2 evB evA req resp e hb hdec he ha henc]
          exact noAckNack_append.mpr ⟨noAckNack_append.mpr
            ⟨noAckNack_append.mpr ⟨hbN, haN⟩, noAckNack_log_map _⟩,
            hE c2 e (s.enc c2 p2 resp).1⟩
  · intro hDef hB hA e herr hnp
    have hbE : (runBefore s.before {} {} d).2 = [] := runBefore_no_events s.before d hB {} {}
    rcases hb : runBefore s.before {} {} d with ⟨⟨c1, p1⟩, evB⟩
    simp only [hb] at hbE
    rcases hdec : s.dec c1 d with edec | req
    · rw [serve_decode_error s ch d c1 p1 evB edec hb hdec] at herr hnp ⊢
      intro ev hm
      rw [hbE, hDef] at hm
      simp only [DefaultErrorEncoder, List.nil_append, List.append_nil, List.mem_map] at hm
      rcases hm with ⟨kv, -, rfl⟩
      exact ⟨kv.1, kv.2, rfl⟩
    · rcases he : s.e c1 req with einv | resp
      · rw [serve_invoke_error s ch d c1 p1 evB req einv hb hdec he] at herr hnp ⊢
        intro ev hm
        rw [hbE, hDef] at hm
        simp only [DefaultErrorEncoder, List.nil_append, List.append_nil, List.mem_map] at hm
        rcases hm with ⟨kv, -, rfl⟩
        exact ⟨kv.1, kv.2, rfl⟩
      · have haE : (runAfter s.after c1 d ch p1).2 = [] :=
          runAfter_no_events s.after d ch hA c1 p1
        rcases ha : runAfter s.after c1 d ch p1 with ⟨⟨c2, p2⟩, evA⟩
        simp only [ha] at haE
        rcases henc : (s.enc c2 p2 resp).2 with - | eenc
        · rcases hpub : (s.publishResponse c2 d ch (s.enc c2 p2 resp).1).1.1 with - | epub
          · rw [serve_success s ch d c1 c2 p1 p2 evB evA req resp hb hdec he ha henc hpub]
              at herr
            exact absurd herr (by simp)
          · rw [serve_publish_error s ch d c1 c2 p1 p2 evB evA req resp epub hb hdec he ha
              henc hpub] at hnp
            exact absurd hnp (by simp)
        · rw [serve_encode_error s ch d c1 c2 p1 p2 evB evA req resp eenc hb hdec he ha henc]
            at herr hnp ⊢
          intro ev hm
          rw [hbE, haE, hDef] at hm
          simp only [DefaultErrorEncoder, List.nil_append, List.append_nil,
            List.mem_map] at hm
          rcases hm with ⟨kv, -, rfl⟩
          exact ⟨kv.1, kv.2, rfl⟩

/-- Witness for C5: the concrete failed run (decode error, default silent
error encoder) acknowledges nothing, rejects nothing, and publishes no
reply. -/
theorem claim5_witness :
    (sDecFail.ServeDelivery chOK dOne).events.filter Event.isAckNack = [] ∧
    (sDecFail.ServeDelivery chOK dOne).events.filter Event.isPublish = [] := by
  have h := (claim5_orchestrator_never_settles sDecFail chOK dOne).2 rfl
    (by intro f hf; exact absurd hf (List.not_mem_nil f))
    (by intro f hf; exact absurd hf (List.not_mem_nil f))
    "E" rfl (by decide)
  refine ⟨List.filter_eq_nil_iff.mpr ?_, List.filter_eq_nil_iff.mpr ?_⟩ <;>
    · intro ev hm
      rcases h ev hm with ⟨k, v, rfl⟩
      simp [Event.isAckNack, Event.isPublish]
